import Mathlib

/-!
Shallow embedding of the spectrum-lookup core of scqubits
(`src/scqubits/core/spec_lookup.py`): bare-label enumeration, the two
overlap-based bare/dressed mapping conventions, the lookup query engine of
`SpectrumLookup` and `SpectrumLookupMixin`, and the serialization contract.

Machine integers are modelled by `Nat`, overlap amplitudes by `ℚ` (the code
takes `np.abs` of generally complex entries; the embedding quantifies over
rational matrices and applies `|·|` exactly where the code does), `None` by
`Option.none`, and raised exceptions by explicit error constructors.
-/

/-- `itertools.product(*map(range, dims))` as used by
`SpectrumLookup._generate_bare_labels` and
`SpectrumLookupMixin._bare_product_states_labels`: all index tuples
`(i_0, ..., i_{k-1})` with `i_j < dims[j]`, in row-major order
(last index varies fastest). -/
def cartesianProd : List Nat → List (List Nat)
  | [] => [[]]
  | d :: ds => (List.range d).flatMap (fun i => (cartesianProd ds).map (i :: ·))

/-- Row-major (mixed-radix) decoding of a flat position into an index tuple:
the inverse of the row-major enumeration order. -/
def rmDecode : List Nat → Nat → List Nat
  | [], _ => []
  | _ :: ds, n => n / ds.prod :: rmDecode ds (n % ds.prod)

namespace SpectrumLookup

/-- `SpectrumLookup._generate_bare_labels`: the canonical ordered list of
bare product-state labels, `itertools.product` over `range(dim)` for each
subsystem dimension. -/
def generate_bare_labels (subsystem_dims : List Nat) : List (List Nat) :=
  cartesianProd subsystem_dims

end SpectrumLookup

namespace SpectrumLookupMixin

/-- `SpectrumLookupMixin._bare_product_states_labels`: identical enumeration,
`itertools.product(*map(range, subsystem_dims))`. -/
def bare_product_states_labels (subsystem_dims : List Nat) : List (List Nat) :=
  cartesianProd subsystem_dims

end SpectrumLookupMixin

lemma range_mul_flatMap (d P : Nat) :
    List.range (d * P)
      = (List.range d).flatMap (fun i => (List.range P).map (fun r => i * P + r)) := by
  induction d with
  | zero => simp
  | succ d ih =>
    rw [Nat.succ_mul, List.range_add, List.range_succ, List.flatMap_append, ih]
    simp [Nat.add_comm]

lemma cartesianProd_eq_range_map (dims : List Nat) :
    cartesianProd dims = (List.range dims.prod).map (rmDecode dims) := by
  induction dims with
  | nil => simp [cartesianProd, rmDecode]
  | cons d ds ih =>
    rcases Nat.eq_zero_or_pos ds.prod with hP | hP
    · have hnil : cartesianProd ds = [] := by
        rw [ih, hP]; simp
      simp [cartesianProd, hnil, List.prod_cons, hP, List.flatMap]
    · rw [List.prod_cons, range_mul_flatMap d ds.prod]
      show cartesianProd (d :: ds) = _
      rw [cartesianProd, ih, List.map_flatMap]
      rw [List.flatMap, List.flatMap]
      apply congrArg List.flatten
      apply List.map_congr_left
      intro i _
      rw [List.map_map, List.map_map]
      apply List.map_congr_left
      intro r hr
      have hrP : r < ds.prod := List.mem_range.mp hr
      simp only [Function.comp]
      rw [rmDecode]
      have hdiv : (i * ds.prod + r) / ds.prod = i := by
        rw [Nat.mul_comm i ds.prod, Nat.mul_add_div hP, Nat.div_eq_of_lt hrP]
        omega
      have hmod : (i * ds.prod + r) % ds.prod = r := by
        rw [Nat.mul_comm i ds.prod, Nat.mul_add_mod, Nat.mod_eq_of_lt hrP]
      rw [hdiv, hmod]

lemma cartesianProd_nodup (dims : List Nat) : (cartesianProd dims).Nodup := by
  induction dims with
  | nil => simp [cartesianProd]
  | cons d ds ih =>
    rw [cartesianProd]
    rw [List.nodup_flatMap]
    constructor
    · intro i _
      exact ih.map (fun a b h => by injection h)
    · have hnd : (List.range d).Nodup := List.nodup_range d
      refine List.Pairwise.imp ?_ hnd
      intro i j hij
      intro x hxi hxj
      rcases List.mem_map.mp hxi with ⟨t, _, rfl⟩
      rcases List.mem_map.mp hxj with ⟨t', _, ht'⟩
      exact hij (by injection ht'.symm)

lemma cartesianProd_mem (dims : List Nat) (t : List Nat) :
    t ∈ cartesianProd dims ↔ List.Forall₂ (· < ·) t dims := by
  induction dims generalizing t with
  | nil =>
    simp [cartesianProd, List.forall₂_nil_right_iff]
  | cons d ds ih =>
    rw [cartesianProd]
    simp only [List.mem_flatMap, List.mem_map, List.mem_range]
    constructor
    · rintro ⟨i, hi, t', ht', rfl⟩
      exact List.Forall₂.cons hi ((ih t').mp ht')
    · intro h
      cases h with
      | cons hab hrest =>
        exact ⟨_, hab, _, (ih _).mpr hrest, rfl⟩

/-- C3: the bare-label enumerator produces exactly `∏ dims` tuples, without
duplicates, membership is exactly pointwise boundedness, the list equals the
row-major enumeration (last index varies fastest), and dimensions `(2,3)`
yield the six labels `(0,0),(0,1),(0,2),(1,0),(1,1),(1,2)`. -/
theorem c3_bare_label_enumerator (dims : List Nat) :
    (SpectrumLookup.generate_bare_labels dims).length = dims.prod ∧
    (SpectrumLookup.generate_bare_labels dims).Nodup ∧
    (∀ t, t ∈ SpectrumLookup.generate_bare_labels dims ↔ List.Forall₂ (· < ·) t dims) ∧
    SpectrumLookup.generate_bare_labels dims
      = (List.range dims.prod).map (rmDecode dims) ∧
    SpectrumLookupMixin.bare_product_states_labels dims
      = SpectrumLookup.generate_bare_labels dims ∧
    SpectrumLookup.generate_bare_labels [2, 3]
      = [[0, 0], [0, 1], [0, 2], [1, 0], [1, 1], [1, 2]] := by
  refine ⟨?_, cartesianProd_nodup dims, cartesianProd_mem dims,
    cartesianProd_eq_range_map dims, rfl, by decide⟩
  show (cartesianProd dims).length = dims.prod
  rw [cartesianProd_eq_range_map dims, List.length_map, List.length_range]

/-- Module-level constant `_OVERLAP_THRESHOLD = 0.5` of `spec_lookup.py`
(the float `0.5` is exactly the rational `1/2`; it is written here as a
normalized numerator/denominator pair so that the kernel can evaluate
comparisons against it, see `OVERLAP_THRESHOLD_eq`). -/
def OVERLAP_THRESHOLD : ℚ := Rat.mk' 1 2

lemma OVERLAP_THRESHOLD_eq : OVERLAP_THRESHOLD = 1 / 2 := by
  rw [OVERLAP_THRESHOLD, ← Rat.num_div_den (Rat.mk' 1 2)]
  norm_num

/-- `np.argmax` over absolute values of a 1-D array: index of the first
element whose absolute value is maximal (numpy returns the first occurrence
of the maximum). -/
def argmaxAbs (l : List ℚ) : Nat :=
  l.findIdx (fun x => l.all (fun y => decide (|y| ≤ |x|)))

lemma argmaxAbs_exists (l : List ℚ) (h : l ≠ []) :
    ∃ x ∈ l, (l.all (fun y => decide (|y| ≤ |x|))) = true := by
  obtain ⟨m, hm⟩ := Option.ne_none_iff_exists'.mp
    (fun hnone => h (List.argmax_eq_none.mp hnone) : l.argmax abs ≠ none)
  refine ⟨m, List.argmax_mem hm, ?_⟩
  rw [List.all_eq_true]
  intro y hy
  exact decide_eq_true (List.le_of_mem_argmax hy hm)

lemma argmaxAbs_lt_length (l : List ℚ) (h : l ≠ []) : argmaxAbs l < l.length :=
  List.findIdx_lt_length_of_exists (argmaxAbs_exists l h)

lemma argmaxAbs_le (l : List ℚ) (h : l ≠ []) :
    ∀ y ∈ l, |y| ≤ |l.getD (argmaxAbs l) 0| := by
  intro y hy
  have hlt := argmaxAbs_lt_length l h
  have hpred : (l.all (fun z => decide (|z| ≤ |l[argmaxAbs l]|))) = true :=
    List.findIdx_getElem (w := hlt)
  rw [List.all_eq_true] at hpred
  have := hpred y hy
  rw [decide_eq_true_eq] at this
  rwa [List.getD_eq_getElem l 0 hlt]

namespace SpectrumLookup

/-- `SpectrumLookup._generate_single_mapping` (bare-indexed variant (a)): for
each bare basis position `b < dim`, find the dressed row of largest
`|overlap_matrix[:, b]|` and assign it when the squared overlap strictly
exceeds the threshold; append `None` otherwise. The matrix is a list of
dressed rows. -/
def generate_single_mapping (overlap_matrix : List (List ℚ)) (dim : Nat) :
    List (Option Nat) :=
  (List.range dim).map (fun bare_basis_index =>
    let col := overlap_matrix.map (fun row => row.getD bare_basis_index 0)
    let max_position := argmaxAbs col
    let max_overlap := |col.getD max_position 0|
    if max_overlap ^ 2 > OVERLAP_THRESHOLD then some max_position else none)

end SpectrumLookup

lemma col_getD (M : List (List ℚ)) (b e : Nat) (he : e < M.length) :
    (M.map (fun row => row.getD b 0)).getD e 0 = (M.getD e []).getD b 0 := by
  have h1 : e < (M.map (fun row => row.getD b 0)).length := by
    rwa [List.length_map]
  rw [List.getD_eq_getElem _ 0 h1, List.getElem_map, List.getD_eq_getElem _ [] he]

/-- C2: the bare-indexed mapping assigns position `b` a dressed row `d` only
when `|M[d,b]|` is a column-wise maximum whose square strictly exceeds the
0.5 threshold, and leaves `b` unassigned (`none`, not an exception) exactly
when every dressed row's squared overlap is at most the threshold. -/
theorem c2_bare_indexed_mapping (M : List (List ℚ)) (dim b : Nat)
    (hb : b < dim) (hM : M ≠ []) :
    (SpectrumLookup.generate_single_mapping M dim).length = dim ∧
    (∀ d, (SpectrumLookup.generate_single_mapping M dim).getD b none = some d →
      d < M.length ∧
      (∀ e, e < M.length →
        |(M.getD e []).getD b 0| ≤ |(M.getD d []).getD b 0|) ∧
      |(M.getD d []).getD b 0| ^ 2 > OVERLAP_THRESHOLD) ∧
    ((SpectrumLookup.generate_single_mapping M dim).getD b none = none →
      ∀ e, e < M.length →
        |(M.getD e []).getD b 0| ^ 2 ≤ OVERLAP_THRESHOLD) := by
  set col := M.map (fun row => row.getD b 0) with hcol
  have hcolne : col ≠ [] := by
    intro hc
    exact hM (List.map_eq_nil_iff.mp hc)
  have hcollen : col.length = M.length := List.length_map M _
  have hmplt : argmaxAbs col < M.length := by
    rw [← hcollen]; exact argmaxAbs_lt_length col hcolne
  have hentry : ∀ e, e < M.length → col.getD e 0 = (M.getD e []).getD b 0 :=
    fun e he => col_getD M b e he
  have hmax : ∀ e, e < M.length →
      |(M.getD e []).getD b 0| ≤ |(M.getD (argmaxAbs col) []).getD b 0| := by
    intro e he
    rw [← hentry e he, ← hentry _ hmplt]
    apply argmaxAbs_le col hcolne
    have he' : e < col.length := by rwa [hcollen]
    rw [List.getD_eq_getElem col 0 he']
    exact List.getElem_mem he'
  have hres : (SpectrumLookup.generate_single_mapping M dim).getD b none
      = (if |col.getD (argmaxAbs col) 0| ^ 2 > OVERLAP_THRESHOLD
          then some (argmaxAbs col) else none) := by
    unfold SpectrumLookup.generate_single_mapping
    have hb' : b < (List.range dim).length := by rwa [List.length_range]
    rw [List.getD_eq_getElem?_getD, List.getElem?_map,
      List.getElem?_eq_getElem hb', List.getElem_range]
    rfl
  refine ⟨by simp [SpectrumLookup.generate_single_mapping], ?_, ?_⟩
  · intro d hd
    rw [hres] at hd
    by_cases hth : |col.getD (argmaxAbs col) 0| ^ 2 > OVERLAP_THRESHOLD
    · rw [if_pos hth] at hd
      obtain rfl : argmaxAbs col = d := by injection hd
      refine ⟨hmplt, hmax, ?_⟩
      rwa [← hentry _ hmplt]
    · rw [if_neg hth] at hd
      exact absurd hd (by simp)
  · intro hd e he
    rw [hres] at hd
    by_cases hth : |col.getD (argmaxAbs col) 0| ^ 2 > OVERLAP_THRESHOLD
    · rw [if_pos hth] at hd
      exact absurd hd (by simp)
    · push_neg at hth
      calc |(M.getD e []).getD b 0| ^ 2
          ≤ |(M.getD (argmaxAbs col) []).getD b 0| ^ 2 := by
            apply pow_le_pow_left₀ (abs_nonneg _) (hmax e he)
        _ = |col.getD (argmaxAbs col) 0| ^ 2 := by rw [hentry _ hmplt]
        _ ≤ OVERLAP_THRESHOLD := hth

/-- C2 witness: for the concrete overlap matrix `[[1]]` (one dressed row,
one bare column) the mapping assigns bare position 0 the dressed row 0, the
column-wise maximum, with squared overlap above the threshold. -/
theorem c2_bare_indexed_mapping_witness :
    (SpectrumLookup.generate_single_mapping [[1]] 1).length = 1 ∧
    (∀ d, (SpectrumLookup.generate_single_mapping [[1]] 1).getD 0 none = some d →
      d < ([[(1 : ℚ)]] : List (List ℚ)).length ∧
      (∀ e, e < ([[(1 : ℚ)]] : List (List ℚ)).length →
        |(([[(1 : ℚ)]] : List (List ℚ)).getD e []).getD 0 0|
          ≤ |(([[(1 : ℚ)]] : List (List ℚ)).getD d []).getD 0 0|) ∧
      |(([[(1 : ℚ)]] : List (List ℚ)).getD d []).getD 0 0| ^ 2 > OVERLAP_THRESHOLD) ∧
    ((SpectrumLookup.generate_single_mapping [[1]] 1).getD 0 none = none →
      ∀ e, e < ([[(1 : ℚ)]] : List (List ℚ)).length →
        |(([[(1 : ℚ)]] : List (List ℚ)).getD e []).getD 0 0| ^ 2
          ≤ OVERLAP_THRESHOLD) :=
  c2_bare_indexed_mapping [[1]] 1 0 (by decide) (by decide)

namespace SpectrumLookupMixin

/-- `overlap_matrix[:, max_position] = 0`: zero out a claimed bare column. -/
def zeroColumn (M : List (List ℚ)) (b : Nat) : List (List ℚ) :=
  M.map (fun row => row.set b 0)

/-- One iteration of the dressed-index loop of
`SpectrumLookupMixin._generate_single_mapping`: take the row of the current
dressed index, find the bare column of largest absolute overlap, and when the
hybridization check is skipped or the squared overlap exceeds the threshold,
consume that column and record the dressed index at that bare position. -/
def mappingStep (ignore_hybridization : Bool)
    (st : List (List ℚ) × List (Option Nat)) (dressed_index : Nat) :
    List (List ℚ) × List (Option Nat) :=
  let row := st.1.getD dressed_index []
  let max_position := argmaxAbs row
  let max_overlap := |row.getD max_position 0|
  if ignore_hybridization = true ∨ max_overlap ^ 2 > OVERLAP_THRESHOLD then
    (zeroColumn st.1 max_position, st.2.set max_position (some dressed_index))
  else st

/-- `SpectrumLookupMixin._generate_single_mapping` (dressed-indexed,
injective variant (b)): start from `dim` unassigned positions and iterate the
dressed indices `0, ..., evals_count - 1` in ascending order. -/
def generate_single_mapping (overlap_matrix : List (List ℚ))
    (dim evals_count : Nat) (ignore_hybridization : Bool) : List (Option Nat) :=
  ((List.range evals_count).foldl (mappingStep ignore_hybridization)
    (overlap_matrix, List.replicate dim none)).2

lemma mapping_fold_bound (M : List (List ℚ)) (dim : Nat)
    (ig : Bool) :
    ∀ (k i v : Nat),
      (((List.range k).foldl (mappingStep ig) (M, List.replicate dim none)).2)[i]?
        = some (some v) → v < k := by
  intro k
  induction k with
  | zero =>
    intro i v hv
    simp only [List.range_zero, List.foldl_nil] at hv
    rw [List.getElem?_replicate] at hv
    by_cases h : i < dim
    · rw [if_pos h] at hv
      exact absurd hv (by simp)
    · rw [if_neg h] at hv
      exact absurd hv (by simp)
  | succ k ih =>
    intro i v hv
    rw [List.range_succ, List.foldl_append, List.foldl_cons, List.foldl_nil] at hv
    set st := (List.range k).foldl (mappingStep ig) (M, List.replicate dim none)
      with hst
    unfold mappingStep at hv
    by_cases hcond : ig = true ∨
        |(st.1.getD k []).getD (argmaxAbs (st.1.getD k [])) 0| ^ 2
          > OVERLAP_THRESHOLD
    · rw [if_pos hcond] at hv
      simp only at hv
      rcases eq_or_ne (argmaxAbs (st.1.getD k [])) i with heq | hne
      · rw [heq, List.getElem?_set_self'] at hv
        by_cases hlen : i < st.2.length
        · rw [List.getElem?_eq_getElem hlen] at hv
          simp only [Option.map_some, Function.const_apply] at hv
          have : v = k := (Option.some.inj (Option.some.inj hv)).symm
          omega
        · rw [List.getElem?_eq_none (by omega)] at hv
          simp at hv
      · rw [List.getElem?_set_ne hne] at hv
        exact Nat.lt_succ_of_lt (ih i v hv)
    · rw [if_neg hcond] at hv
      exact Nat.lt_succ_of_lt (ih i v hv)

/-- C1: the dressed-indexed (injective) mapping never stores the same dressed
index at two distinct bare positions of the returned table, for every overlap
matrix, Hilbert dimension, eigenvalue count and hybridization-ignore flag. -/
theorem c1_injective_mapping (M : List (List ℚ)) (dim evals_count : Nat)
    (ig : Bool) :
    ∀ (i j v : Nat), i ≠ j →
      (SpectrumLookupMixin.generate_single_mapping M dim evals_count ig)[i]?
        = some (some v) →
      (SpectrumLookupMixin.generate_single_mapping M dim evals_count ig)[j]?
        ≠ some (some v) := by
  unfold SpectrumLookupMixin.generate_single_mapping
  suffices h : ∀ (k i j v : Nat), i ≠ j →
      (((List.range k).foldl (mappingStep ig) (M, List.replicate dim none)).2)[i]?
        = some (some v) →
      (((List.range k).foldl (mappingStep ig) (M, List.replicate dim none)).2)[j]?
        ≠ some (some v) by
    exact h evals_count
  intro k
  induction k with
  | zero =>
    intro i j v hij hv
    exfalso
    have := mapping_fold_bound M dim ig 0 i v hv
    omega
  | succ k ih =>
    intro i j v hij hv hv'
    rw [List.range_succ, List.foldl_append, List.foldl_cons, List.foldl_nil]
      at hv hv'
    set st := (List.range k).foldl (mappingStep ig) (M, List.replicate dim none)
      with hst
    unfold mappingStep at hv hv'
    by_cases hcond : ig = true ∨
        |(st.1.getD k []).getD (argmaxAbs (st.1.getD k [])) 0| ^ 2
          > OVERLAP_THRESHOLD
    · rw [if_pos hcond] at hv hv'
      simp only at hv hv'
      set mp := argmaxAbs (st.1.getD k []) with hmp
      rcases eq_or_ne mp i with heqi | hnei
      · have hnej : mp ≠ j := heqi ▸ hij
        rw [List.getElem?_set_ne hnej] at hv'
        rw [heqi, List.getElem?_set_self'] at hv
        by_cases hlen : i < st.2.length
        · rw [List.getElem?_eq_getElem hlen] at hv
          simp only [Option.map_some, Function.const_apply] at hv
          have hvk : v = k := (Option.some.inj (Option.some.inj hv)).symm
          have := mapping_fold_bound M dim ig k j v hv'
          omega
        · rw [List.getElem?_eq_none (by omega)] at hv
          simp at hv
      · rw [List.getElem?_set_ne hnei] at hv
        rcases eq_or_ne mp j with heqj | hnej
        · rw [heqj, List.getElem?_set_self'] at hv'
          by_cases hlen : j < st.2.length
          · rw [List.getElem?_eq_getElem hlen] at hv'
            simp only [Option.map_some, Function.const_apply] at hv'
            have hvk : v = k := (Option.some.inj (Option.some.inj hv')).symm
            have := mapping_fold_bound M dim ig k i v hv
            omega
          · rw [List.getElem?_eq_none (by omega)] at hv'
            simp at hv'
        · rw [List.getElem?_set_ne hnej] at hv'
          exact ih i j v hij hv hv'
    · rw [if_neg hcond] at hv hv'
      exact ih i j v hij hv hv'

/-- C1 witness: for the concrete overlap matrix `[[1,0],[0,1]]` the produced
table assigns bare position 0 the dressed index 0, and position 1 does not
also hold dressed index 0. -/
theorem c1_injective_mapping_witness :
    (0 : Nat) ≠ 1 ∧
    (SpectrumLookupMixin.generate_single_mapping [[1, 0], [0, 1]] 2 2 false)[0]?
      = some (some 0) ∧
    (SpectrumLookupMixin.generate_single_mapping [[1, 0], [0, 1]] 2 2 false)[1]?
      ≠ some (some 0) :=
  ⟨by decide, by decide,
    c1_injective_mapping [[1, 0], [0, 1]] 2 2 false 0 1 0 (by decide) (by decide)⟩

end SpectrumLookupMixin

/-- A single numpy index entry as used in a parameter-index specification:
a concrete integer index or a slice (`slice(None)`); these are the two kinds
of entries the queries of `SpectrumLookupMixin` receive. -/
inductive NpIndexVal where
  | idx : Nat → NpIndexVal
  | sl : NpIndexVal
deriving DecidableEq

/-- A Python value passed as `param_indices`: either a single entry or a
tuple of entries (`NpIndices` in the source's type vocabulary). -/
inductive NpIndices where
  | single : NpIndexVal → NpIndices
  | tup : List NpIndexVal → NpIndices
deriving DecidableEq

/-- Python truthiness of a `param_indices` value: the integer `0` and the
empty tuple are falsy, a slice object is truthy. -/
def npFalsy : NpIndices → Bool
  | .single (.idx n) => n == 0
  | .single .sl => false
  | .tup l => l.isEmpty

namespace SpectrumLookupMixin

/-- `SpectrumLookupMixin.set_npindextuple`:
`param_indices = param_indices or self._current_param_indices`, then wrap a
non-tuple into a 1-tuple. `Option.none` models an omitted argument (Python
`None` is falsy, so an explicit `None` behaves identically). -/
def set_npindextuple (param_indices : Option NpIndices) (current : NpIndices) :
    List NpIndexVal :=
  let chosen := match param_indices with
    | none => current
    | some v => if npFalsy v then current else v
  match chosen with
  | .single v => [v]
  | .tup l => l

end SpectrumLookupMixin

/-- The per-axis counts of the slice axes of a specification: the shape of
the free axes that remain after numpy indexing with `spec` (concrete entries
collapse their axis, slices keep it). -/
def freeCounts (counts : List Nat) (spec : List NpIndexVal) : List Nat :=
  (counts.zip spec).filterMap (fun cv => match cv.2 with
    | .sl => some cv.1
    | .idx _ => none)

/-- Reconstruct a full grid point from a specification and coordinates for
its free (slice) axes. -/
def fillSpec : List NpIndexVal → List Nat → List Nat
  | [], _ => []
  | .idx n :: rest, free => n :: fillSpec rest free
  | .sl :: rest, f :: fs => f :: fillSpec rest fs
  | .sl :: rest, [] => 0 :: fillSpec rest []

/-- The free-axis coordinates of `arr[spec]` in row-major (C) order: a numpy
array selected by a (possibly partial) index tuple is embedded as the list
of its entries over these coordinates. -/
def freePoints (counts : List Nat) (spec : List NpIndexVal) : List (List Nat) :=
  cartesianProd (freeCounts counts spec)

namespace SpectrumLookupMixin

/-- `SpectrumLookupMixin.dressed_index`: resolve the bare label to its
lookup position (first match; `None` when absent), then index
`self._data["dressed_indices"]` with `param_indices + (lookup_position,)`.
The selected (possibly 0-dimensional) array is embedded as the row-major
list of its entries over the free axes; `table` maps a full grid point to
the per-point list of dressed indices. -/
def dressed_index (counts : List Nat) (table : List Nat → List (Option Nat))
    (labels : List (List Nat)) (bare_labels : List Nat)
    (param_indices : Option NpIndices) (current : NpIndices) :
    Option (List (Option Nat)) :=
  let spec := set_npindextuple param_indices current
  match labels.findIdx? (fun l => l == bare_labels) with
  | none => none
  | some lookup_position =>
      some ((freePoints counts spec).map
        (fun free => (table (fillSpec spec free)).getD lookup_position none))

/-- Outcome of `SpectrumLookupMixin.bare_index`: a bare label, the
usage `ValueError` ("All parameters must be fixed to concrete values..."),
or the lookup-failure `ValueError` ("Could not identify a bare index..."). -/
inductive BareIndexOutcome where
  | ok : List Nat → BareIndexOutcome
  | usageError : BareIndexOutcome
  | notFoundError : BareIndexOutcome
deriving DecidableEq

/-- `SpectrumLookupMixin.all_params_fixed`: after tuple-wrapping, the check
is `len(self._parameters) == len(param_indices)` - an arity comparison
only. -/
def all_params_fixed (nparams : Nat) (spec : List NpIndexVal) : Bool :=
  nparams == spec.length

/-- `SpectrumLookupMixin.bare_index`: gate on `all_params_fixed`, then
`np.where(self._data["dressed_indices"][param_index_tuple] == dressed_index)
[0][0]`. The selected array has the slice axes followed by the bare-position
axis; `np.where(...)[0][0]` is the first coordinate (first remaining axis)
of the first match in row-major order. -/
def bare_index (counts : List Nat) (dim : Nat)
    (table : List Nat → List (Option Nat)) (labels : List (List Nat))
    (dressed_index : Nat) (param_indices : Option NpIndices)
    (current : NpIndices) : BareIndexOutcome :=
  let spec := set_npindextuple param_indices current
  if all_params_fixed counts.length spec then
    match (cartesianProd (freeCounts counts spec ++ [dim])).find?
        (fun ridx => (table (fillSpec spec ridx.dropLast)).getD (ridx.getLastD 0) none
          == some dressed_index) with
    | none => .notFoundError
    | some ridx => .ok (labels.getD (ridx.headD 0) [])
  else .usageError

/-- `SpectrumLookupMixin.eigensys`: `self._data["evecs"][param_index_tuple]`;
`evecs` maps a grid point to its eigenvector table. -/
def eigensys (counts : List Nat) (evecs : List Nat → List (List ℚ))
    (param_indices : Option NpIndices) (current : NpIndices) :
    List (List (List ℚ)) :=
  let spec := set_npindextuple param_indices current
  (freePoints counts spec).map (fun free => evecs (fillSpec spec free))

/-- `SpectrumLookupMixin.eigenvals`: `self._data["evals"][param_indices_tuple]`;
`evals` maps a grid point to its ascending dressed-energy list. -/
def eigenvals (counts : List Nat) (evals : List Nat → List ℚ)
    (param_indices : Option NpIndices) (current : NpIndices) : List (List ℚ) :=
  let spec := set_npindextuple param_indices current
  (freePoints counts spec).map (fun free => evals (fillSpec spec free))

/-- `SpectrumLookupMixin.energy_by_bare_index`: compose `dressed_index` with
an `evals` slice; iterate the dressed-index array entries (row-major, as
`np.nditer` does), writing `np.nan` (here `Option.none`) for unassigned
entries and `sliced_energies[multi_index][location]`, minus the ground
energy `sliced_energies[multi_index][0]` when requested, otherwise. The
outer `none` is the `np.nan` returned for an unknown bare label. -/
def energy_by_bare_index (counts : List Nat)
    (table : List Nat → List (Option Nat)) (evals : List Nat → List ℚ)
    (labels : List (List Nat)) (bare_tuple : List Nat)
    (subtract_ground : Bool) (param_indices : Option NpIndices)
    (current : NpIndices) : Option (List (Option ℚ)) :=
  let spec := set_npindextuple param_indices current
  match dressed_index counts table labels bare_tuple param_indices current with
  | none => none
  | some arr =>
      some ((arr.zip (freePoints counts spec)).map (fun dv =>
        match dv.1 with
        | none => none
        | some d =>
            let sliced_energies := evals (fillSpec spec dv.2)
            some (if subtract_ground
              then sliced_energies.getD d 0 - sliced_energies.getD 0 0
              else sliced_energies.getD d 0)))

/-- `SpectrumLookupMixin.energy_by_dressed_index`:
`self["evals"][param_indices_tuple + (dressed_index,)]`, optionally minus
`self["evals"][param_indices_tuple + (0,)]`. -/
def energy_by_dressed_index (counts : List Nat) (evals : List Nat → List ℚ)
    (dressed_index : Nat) (subtract_ground : Bool)
    (param_indices : Option NpIndices) (current : NpIndices) : List ℚ :=
  let spec := set_npindextuple param_indices current
  (freePoints counts spec).map (fun free =>
    let energies := (evals (fillSpec spec free)).getD dressed_index 0
    if subtract_ground
      then energies - (evals (fillSpec spec free)).getD 0 0
      else energies)

/-- `HilbertSpace.get_subsys_index`, as used by the mixin: position of the
subsystem in the composite ordering (subsystems are opaque identifiers). -/
def get_subsys_index (subsystems : List Nat) (subsys : Nat) : Nat :=
  subsystems.findIdx (fun s => s == subsys)

/-- `SpectrumLookupMixin.bare_eigenstates`:
`self["bare_evecs"][subsys_index][param_indices_tuple]`. -/
def bare_eigenstates (counts : List Nat)
    (bare_evecs : Nat → List Nat → List (List ℚ)) (subsystems : List Nat)
    (subsys : Nat) (param_indices : Option NpIndices) (current : NpIndices) :
    List (List (List ℚ)) :=
  let spec := set_npindextuple param_indices current
  (freePoints counts spec).map (fun free =>
    bare_evecs (get_subsys_index subsystems subsys) (fillSpec spec free))

/-- `SpectrumLookupMixin.bare_eigenvals`:
`self["bare_evals"][subsys_index][param_indices_tuple]`. -/
def bare_eigenvals (counts : List Nat)
    (bare_evals : Nat → List Nat → List ℚ) (subsystems : List Nat)
    (subsys : Nat) (param_indices : Option NpIndices) (current : NpIndices) :
    List (List ℚ) :=
  let spec := set_npindextuple param_indices current
  (freePoints counts spec).map (fun free =>
    bare_evals (get_subsys_index subsystems subsys) (fillSpec spec free))

/-- `qutip.basis(dim, state_index)`: standard basis column vector. -/
def qbasis (dim state_index : Nat) : List ℚ :=
  (List.range dim).map (fun j => if j = state_index then 1 else 0)

/-- `qutip.tensor(*product_state_list)`: Kronecker product of kets. -/
def qtensor (vs : List (List ℚ)) : List ℚ :=
  vs.foldl (fun acc v => acc.flatMap (fun a => v.map (fun x => a * x))) [1]

/-- `SpectrumLookupMixin.bare_productstate` (and the identical
`SpectrumLookup.bare_productstate`): tensor product of subsystem basis kets,
`enumerate(bare_index)` with `dim = subsys_dims[subsys_index]`; no parameter
dependence and no lookup-table access. -/
def bare_productstate (subsys_dims : List Nat) (bare_index : List Nat) :
    List ℚ :=
  qtensor ((List.range bare_index.length).map (fun subsys_index =>
    qbasis (subsys_dims.getD subsys_index 0) (bare_index.getD subsys_index 0)))

end SpectrumLookupMixin

/-- C9: the falsy check in `set_npindextuple` makes the explicit integer
parameter index `0` indistinguishable from an omitted argument: both select
the stored current-index context, for every query routed through it
(`dressed_index` and `eigenvals` shown on their full result), so the
concrete index 0 can never be selected through this argument. -/
theorem c9_zero_param_index_is_falsy (counts : List Nat)
    (table : List Nat → List (Option Nat)) (evals : List Nat → List ℚ)
    (labels : List (List Nat)) (bare_labels : List Nat) (current : NpIndices) :
    SpectrumLookupMixin.set_npindextuple
        (some (NpIndices.single (NpIndexVal.idx 0))) current
      = SpectrumLookupMixin.set_npindextuple none current ∧
    SpectrumLookupMixin.dressed_index counts table labels bare_labels
        (some (NpIndices.single (NpIndexVal.idx 0))) current
      = SpectrumLookupMixin.dressed_index counts table labels bare_labels
          none current ∧
    SpectrumLookupMixin.eigenvals counts evals
        (some (NpIndices.single (NpIndexVal.idx 0))) current
      = SpectrumLookupMixin.eigenvals counts evals none current :=
  ⟨rfl, rfl, rfl⟩

/-- C5 counterexample: with one parameter axis, calling `bare_index` with the
specification `(slice(None),)` fixes no axis to a concrete value, yet the
arity-only gate `all_params_fixed` passes and the call returns a bare label
instead of raising the usage error. -/
theorem c5_counterexample :
    SpectrumLookupMixin.bare_index [2] 1 (fun _ => [some 7]) [[0]] 7
        (some (NpIndices.tup [NpIndexVal.sl])) (NpIndices.tup [])
      = SpectrumLookupMixin.BareIndexOutcome.ok [0] ∧
    SpectrumLookupMixin.BareIndexOutcome.ok [0]
      ≠ SpectrumLookupMixin.BareIndexOutcome.usageError :=
  ⟨by decide, by decide⟩

/-- C5 (amended): `bare_index` raises the usage error exactly when the
tuple-wrapped specification's length differs from the number of parameter
axes; the gate checks arity only, so a full-length tuple of slices passes
it even though it fixes no axis. -/
theorem c5_usage_error_iff_arity_mismatch (counts : List Nat) (dim : Nat)
    (table : List Nat → List (Option Nat)) (labels : List (List Nat))
    (d : Nat) (param_indices : Option NpIndices) (current : NpIndices) :
    SpectrumLookupMixin.bare_index counts dim table labels d
        param_indices current
      = SpectrumLookupMixin.BareIndexOutcome.usageError
    ↔ (SpectrumLookupMixin.set_npindextuple param_indices current).length
        ≠ counts.length := by
  unfold SpectrumLookupMixin.bare_index SpectrumLookupMixin.all_params_fixed
  set spec := SpectrumLookupMixin.set_npindextuple param_indices current
    with hspec
  by_cases h : (counts.length == spec.length) = true
  · have hlen : spec.length = counts.length := (beq_iff_eq.mp h).symm
    rw [if_pos h]
    split
    · simp [hlen]
    · simp [hlen]
  · have hne : spec.length ≠ counts.length :=
      fun hc => h (beq_iff_eq.mpr hc.symm)
    rw [if_neg h]
    simp [hne]

lemma freeCounts_of_no_slice (counts : List Nat) (spec : List NpIndexVal)
    (h : ∀ v ∈ spec, v ≠ NpIndexVal.sl) : freeCounts counts spec = [] := by
  rw [freeCounts, List.filterMap_eq_nil_iff]
  intro cv hcv
  have hv := (List.of_mem_zip hcv).2
  cases hcv2 : cv.2 with
  | idx n => simp [hcv2]
  | sl => exact absurd (hcv2 ▸ hv) (by simpa using h NpIndexVal.sl)

lemma flatMap_singleton_lists (l : List Nat) :
    (l.flatMap (fun i => [[i]])) = l.map (fun i => [i]) := by
  induction l with
  | nil => rfl
  | cons a l ih => simp [List.flatMap_cons, ih]

lemma cartesianProd_one (n : Nat) :
    cartesianProd [n] = (List.range n).map (fun b => [b]) := by
  rw [cartesianProd]
  calc (List.range n).flatMap (fun i => (cartesianProd []).map (i :: ·))
      = (List.range n).flatMap (fun i => [[i]]) := rfl
    _ = (List.range n).map (fun b => [b]) :=
        flatMap_singleton_lists (List.range n)

lemma find?_range_first (n pos : Nat) (q : Nat → Bool) (hpos : pos < n)
    (hq : q pos = true) (hmin : ∀ i, i < pos → q i = false) :
    (List.range n).find? q = some pos := by
  induction n with
  | zero => omega
  | succ n ih =>
    rw [List.range_succ, List.find?_append]
    rcases Nat.lt_or_ge pos n with h | h
    · rw [ih h]
      rfl
    · have hpn : pos = n := by omega
      have hnone : (List.range n).find? q = none := by
        rw [List.find?_eq_none]
        intro x hx
        rw [List.mem_range] at hx
        simp [hmin x (by omega)]
      rw [hnone, ← hpn]
      simp [hq]

/-- With a fully concrete (no-slice) full-arity parameter specification,
the mixin's `bare_index` raises the lookup-failure error exactly when no
bare position of the table at that grid point holds the dressed index, and
otherwise returns the canonical bare label of the first matching position
of the linear scan. -/
lemma mixin_bare_index_scan_spec (counts : List Nat) (dim : Nat)
    (table : List Nat → List (Option Nat)) (labels : List (List Nat))
    (d : Nat) (param_indices : Option NpIndices) (current : NpIndices)
    (hconc : ∀ v ∈ SpectrumLookupMixin.set_npindextuple param_indices current,
      v ≠ NpIndexVal.sl)
    (hlen : (SpectrumLookupMixin.set_npindextuple param_indices current).length
      = counts.length) :
    (SpectrumLookupMixin.bare_index counts dim table labels d
        param_indices current
      = SpectrumLookupMixin.BareIndexOutcome.notFoundError
      ↔ ∀ b, b < dim →
        (table (fillSpec
          (SpectrumLookupMixin.set_npindextuple param_indices current) [])).getD
            b none ≠ some d) ∧
    (∀ pos, pos < dim →
      (table (fillSpec
        (SpectrumLookupMixin.set_npindextuple param_indices current) [])).getD
          pos none = some d →
      (∀ q, q < pos →
        (table (fillSpec
          (SpectrumLookupMixin.set_npindextuple param_indices current) [])).getD
            q none ≠ some d) →
      SpectrumLookupMixin.bare_index counts dim table labels d
          param_indices current
        = SpectrumLookupMixin.BareIndexOutcome.ok (labels.getD pos [])) := by
  set spec := SpectrumLookupMixin.set_npindextuple param_indices current
    with hspec
  set pt := fillSpec spec [] with hpt
  have hfc : freeCounts counts spec = [] := freeCounts_of_no_slice counts spec hconc
  have hgate : SpectrumLookupMixin.all_params_fixed counts.length spec = true := by
    rw [SpectrumLookupMixin.all_params_fixed, beq_iff_eq, hlen]
  have hred : SpectrumLookupMixin.bare_index counts dim table labels d
      param_indices current
      = match ((List.range dim).map (fun b => [b])).find?
          (fun ridx => (table (fillSpec spec ridx.dropLast)).getD
            (ridx.getLastD 0) none == some d) with
        | none => SpectrumLookupMixin.BareIndexOutcome.notFoundError
        | some ridx =>
            SpectrumLookupMixin.BareIndexOutcome.ok (labels.getD (ridx.headD 0) []) := by
    rw [SpectrumLookupMixin.bare_index]
    rw [← hspec, if_pos hgate, hfc]
    rw [show ([] : List Nat) ++ [dim] = [dim] from rfl, cartesianProd_one]
  have hcompose : ((List.range dim).map (fun b => [b])).find?
      (fun ridx => (table (fillSpec spec ridx.dropLast)).getD
        (ridx.getLastD 0) none == some d)
      = ((List.range dim).find?
          (fun b => (table pt).getD b none == some d)).map (fun b => [b]) := by
    rw [List.find?_map]
    rfl
  constructor
  · rw [hred, hcompose]
    cases hfind : (List.range dim).find?
        (fun b => (table pt).getD b none == some d) with
    | none =>
      rw [List.find?_eq_none] at hfind
      constructor
      · intro _ b hb hbd
        refine hfind b (List.mem_range.mpr hb) ?_
        show ((table pt).getD b none == some d) = true
        exact beq_iff_eq.mpr hbd
      · intro _
        rfl
    | some b =>
      constructor
      · intro hcontra
        exact SpectrumLookupMixin.BareIndexOutcome.noConfusion hcontra
      · intro hall
        exfalso
        have hbmem := List.mem_range.mp (List.mem_of_find?_eq_some hfind)
        have hbq0 := List.find?_some hfind
        exact hall b hbmem (beq_iff_eq.mp hbq0)
  · intro pos hpos hposd hminimal
    rw [hred, hcompose]
    rw [find?_range_first dim pos
      (fun b => (table pt).getD b none == some d) hpos
      (beq_iff_eq.mpr hposd)
      (fun i hi => by
        show ((table pt).getD i none == some d) = false
        rw [beq_eq_false_iff_ne]
        exact hminimal i hi)]
    rfl

/-- C4: whenever `dressed_index` returns an array for a bare label,
`energy_by_bare_index` returns an array of the same shape in which every
unassigned (`None`) dressed entry becomes the NaN sentinel element-wise
(no exception), and every assigned entry `d` becomes the dressed energy at
`d` for the corresponding parameter point, minus that point's ground-state
(dressed index 0) energy when `subtract_ground` is set. -/
theorem c4_energy_by_bare_index (counts : List Nat)
    (table : List Nat → List (Option Nat)) (evals : List Nat → List ℚ)
    (labels : List (List Nat)) (bare_tuple : List Nat)
    (subtract_ground : Bool) (param_indices : Option NpIndices)
    (current : NpIndices) (arr : List (Option Nat))
    (hd : SpectrumLookupMixin.dressed_index counts table labels bare_tuple
        param_indices current = some arr) :
    ∃ res, SpectrumLookupMixin.energy_by_bare_index counts table evals labels
        bare_tuple subtract_ground param_indices current = some res ∧
      res.length = arr.length ∧
      ∀ k, k < arr.length →
        (arr[k]? = some none → res[k]? = some none) ∧
        (∀ d, arr[k]? = some (some d) →
          res[k]? = some (some (
            if subtract_ground then
              (evals (fillSpec
                (SpectrumLookupMixin.set_npindextuple param_indices current)
                ((freePoints counts
                  (SpectrumLookupMixin.set_npindextuple param_indices current)).getD
                    k []))).getD d 0
              - (evals (fillSpec
                (SpectrumLookupMixin.set_npindextuple param_indices current)
                ((freePoints counts
                  (SpectrumLookupMixin.set_npindextuple param_indices current)).getD
                    k []))).getD 0 0
            else
              (evals (fillSpec
                (SpectrumLookupMixin.set_npindextuple param_indices current)
                ((freePoints counts
                  (SpectrumLookupMixin.set_npindextuple param_indices current)).getD
                    k []))).getD d 0))) := by
  set spec := SpectrumLookupMixin.set_npindextuple param_indices current
    with hspec
  set fp := freePoints counts spec with hfp
  have hd0 := hd
  unfold SpectrumLookupMixin.dressed_index at hd0
  have hlenarr : arr.length = fp.length := by
    cases hfi : labels.findIdx? (fun l => l == bare_tuple) with
    | none =>
      rw [hfi] at hd0
      exact absurd hd0 (by simp)
    | some pos =>
      rw [hfi] at hd0
      injection hd0 with h1
      rw [← h1, List.length_map, hfp]
  refine ⟨(arr.zip fp).map (fun dv =>
      match dv.1 with
      | none => none
      | some d =>
          some (if subtract_ground
            then (evals (fillSpec spec dv.2)).getD d 0
              - (evals (fillSpec spec dv.2)).getD 0 0
            else (evals (fillSpec spec dv.2)).getD d 0)), ?_, ?_, ?_⟩
  · unfold SpectrumLookupMixin.energy_by_bare_index
    rw [hd]
  · rw [List.length_map, List.length_zip, hlenarr, Nat.min_self]
  · intro k hk
    have hkfp : k < fp.length := hlenarr ▸ hk
    have hfpk : fp[k]? = some (fp.getD k []) := by
      rw [List.getD_eq_getElem fp [] hkfp]
      exact List.getElem?_eq_getElem hkfp
    constructor
    · intro hnone
      have hzip : (arr.zip fp)[k]? = some (none, fp.getD k []) :=
        List.getElem?_zip_eq_some.mpr ⟨hnone, hfpk⟩
      rw [List.getElem?_map, hzip]
      rfl
    · intro d hdk
      have hzip : (arr.zip fp)[k]? = some (some d, fp.getD k []) :=
        List.getElem?_zip_eq_some.mpr ⟨hdk, hfpk⟩
      rw [List.getElem?_map, hzip]
      rfl

/-- Dressed-index table used by the C4 witness: one parameter axis with two
values; bare position 1 is assigned dressed index 1 at the first grid point
and unassigned at the second. -/
def c4WitnessTable : List Nat → List (Option Nat) :=
  fun pt => if pt = [0] then [none, some 1] else [some 0, none]

/-- Dressed energies used by the C4 witness. -/
def c4WitnessEvals : List Nat → List ℚ :=
  fun pt => if pt = [0] then [3, 5] else [2, 7]

/-- C4 witness: for the concrete partial slice over one axis, the bare label
`(1,)` resolves to the dressed-index array `[some 1, none]`, and
`energy_by_bare_index` with ground subtraction yields an array whose second
entry is the NaN sentinel and whose first is the ground-subtracted energy. -/
theorem c4_energy_by_bare_index_witness :
    SpectrumLookupMixin.dressed_index [2] c4WitnessTable [[0], [1]] [1]
        (some (NpIndices.tup [NpIndexVal.sl])) (NpIndices.tup [])
      = some [some 1, none] ∧
    (∃ res, SpectrumLookupMixin.energy_by_bare_index [2] c4WitnessTable
        c4WitnessEvals [[0], [1]] [1] true
        (some (NpIndices.tup [NpIndexVal.sl])) (NpIndices.tup [])
      = some res ∧
      res.length = ([some 1, none] : List (Option Nat)).length ∧
      ∀ k, k < ([some 1, none] : List (Option Nat)).length →
        (([some 1, none] : List (Option Nat))[k]? = some none →
          res[k]? = some none) ∧
        (∀ d, ([some 1, none] : List (Option Nat))[k]? = some (some d) →
          res[k]? = some (some (
            if true then
              (c4WitnessEvals (fillSpec
                (SpectrumLookupMixin.set_npindextuple
                  (some (NpIndices.tup [NpIndexVal.sl])) (NpIndices.tup []))
                ((freePoints [2]
                  (SpectrumLookupMixin.set_npindextuple
                    (some (NpIndices.tup [NpIndexVal.sl]))
                    (NpIndices.tup []))).getD k []))).getD d 0
              - (c4WitnessEvals (fillSpec
                (SpectrumLookupMixin.set_npindextuple
                  (some (NpIndices.tup [NpIndexVal.sl])) (NpIndices.tup []))
                ((freePoints [2]
                  (SpectrumLookupMixin.set_npindextuple
                    (some (NpIndices.tup [NpIndexVal.sl]))
                    (NpIndices.tup []))).getD k []))).getD 0 0
            else
              (c4WitnessEvals (fillSpec
                (SpectrumLookupMixin.set_npindextuple
                  (some (NpIndices.tup [NpIndexVal.sl])) (NpIndices.tup []))
                ((freePoints [2]
                  (SpectrumLookupMixin.set_npindextuple
                    (some (NpIndices.tup [NpIndexVal.sl]))
                    (NpIndices.tup []))).getD k []))).getD d 0)))) :=
  ⟨by decide,
    c4_energy_by_bare_index [2] c4WitnessTable c4WitnessEvals [[0], [1]] [1]
      true (some (NpIndices.tup [NpIndexVal.sl])) (NpIndices.tup [])
      [some 1, none] (by decide)⟩

/-- The value `slice(None, None, None)` written to
`self._current_param_indices` by the three resetting queries. -/
def fullSlice : NpIndices := NpIndices.single NpIndexVal.sl

namespace SpectrumLookupMixin

/-- State-passing embedding of `dressed_index`: the method body contains no
assignment to `self._current_param_indices`, so the stored context is
returned unchanged. -/
def dressed_index_st (counts : List Nat) (table : List Nat → List (Option Nat))
    (labels : List (List Nat)) (bare_labels : List Nat)
    (param_indices : Option NpIndices) (current : NpIndices) :
    Option (List (Option Nat)) × NpIndices :=
  (dressed_index counts table labels bare_labels param_indices current, current)

/-- State-passing embedding of `bare_index` (no assignment to the stored
context). -/
def bare_index_st (counts : List Nat) (dim : Nat)
    (table : List Nat → List (Option Nat)) (labels : List (List Nat))
    (dressed_index : Nat) (param_indices : Option NpIndices)
    (current : NpIndices) : BareIndexOutcome × NpIndices :=
  (bare_index counts dim table labels dressed_index param_indices current,
    current)

/-- State-passing embedding of `eigensys` (no assignment). -/
def eigensys_st (counts : List Nat) (evecs : List Nat → List (List ℚ))
    (param_indices : Option NpIndices) (current : NpIndices) :
    List (List (List ℚ)) × NpIndices :=
  (eigensys counts evecs param_indices current, current)

/-- State-passing embedding of `eigenvals` (no assignment). -/
def eigenvals_st (counts : List Nat) (evals : List Nat → List ℚ)
    (param_indices : Option NpIndices) (current : NpIndices) :
    List (List ℚ) × NpIndices :=
  (eigenvals counts evals param_indices current, current)

/-- State-passing embedding of `energy_by_bare_index` (no assignment). -/
def energy_by_bare_index_st (counts : List Nat)
    (table : List Nat → List (Option Nat)) (evals : List Nat → List ℚ)
    (labels : List (List Nat)) (bare_tuple : List Nat)
    (subtract_ground : Bool) (param_indices : Option NpIndices)
    (current : NpIndices) : Option (List (Option ℚ)) × NpIndices :=
  (energy_by_bare_index counts table evals labels bare_tuple subtract_ground
    param_indices current, current)

/-- State-passing embedding of `energy_by_dressed_index`: the body executes
`self._current_param_indices = slice(None, None, None)` after resolving the
index tuple from the old context, so the returned context is the full
slice. -/
def energy_by_dressed_index_st (counts : List Nat) (evals : List Nat → List ℚ)
    (dressed_index : Nat) (subtract_ground : Bool)
    (param_indices : Option NpIndices) (current : NpIndices) :
    List ℚ × NpIndices :=
  (energy_by_dressed_index counts evals dressed_index subtract_ground
    param_indices current, fullSlice)

/-- State-passing embedding of `bare_eigenstates`: resets the stored context
to the full slice. -/
def bare_eigenstates_st (counts : List Nat)
    (bare_evecs : Nat → List Nat → List (List ℚ)) (subsystems : List Nat)
    (subsys : Nat) (param_indices : Option NpIndices) (current : NpIndices) :
    List (List (List ℚ)) × NpIndices :=
  (bare_eigenstates counts bare_evecs subsystems subsys param_indices current,
    fullSlice)

/-- State-passing embedding of `bare_eigenvals`: resets the stored context
to the full slice. -/
def bare_eigenvals_st (counts : List Nat)
    (bare_evals : Nat → List Nat → List ℚ) (subsystems : List Nat)
    (subsys : Nat) (param_indices : Option NpIndices) (current : NpIndices) :
    List (List ℚ) × NpIndices :=
  (bare_eigenvals counts bare_evals subsystems subsys param_indices current,
    fullSlice)

end SpectrumLookupMixin

/-- C10: `energy_by_dressed_index`, `bare_eigenstates` and `bare_eigenvals`
reset the stored current-parameter-index context to the full slice on every
call, while `dressed_index`, `bare_index`, `eigensys`, `eigenvals` and
`energy_by_bare_index` leave the stored context unchanged. -/
theorem c10_current_param_indices_frame (counts : List Nat)
    (table : List Nat → List (Option Nat)) (evals : List Nat → List ℚ)
    (evecs : List Nat → List (List ℚ))
    (bare_evecs : Nat → List Nat → List (List ℚ))
    (bare_evals : Nat → List Nat → List ℚ) (subsystems : List Nat)
    (subsys : Nat) (labels : List (List Nat)) (bt : List Nat) (d : Nat)
    (sg : Bool) (param_indices : Option NpIndices) (current : NpIndices) :
    (SpectrumLookupMixin.energy_by_dressed_index_st counts evals d sg
        param_indices current).2 = fullSlice ∧
    (SpectrumLookupMixin.bare_eigenstates_st counts bare_evecs subsystems
        subsys param_indices current).2 = fullSlice ∧
    (SpectrumLookupMixin.bare_eigenvals_st counts bare_evals subsystems
        subsys param_indices current).2 = fullSlice ∧
    (SpectrumLookupMixin.dressed_index_st counts table labels bt
        param_indices current).2 = current ∧
    (SpectrumLookupMixin.bare_index_st counts 0 table labels d
        param_indices current).2 = current ∧
    (SpectrumLookupMixin.eigensys_st counts evecs param_indices current).2
      = current ∧
    (SpectrumLookupMixin.eigenvals_st counts evals param_indices current).2
      = current ∧
    (SpectrumLookupMixin.energy_by_bare_index_st counts table evals labels bt
        sg param_indices current).2 = current :=
  ⟨rfl, rfl, rfl, rfl, rfl, rfl, rfl, rfl⟩

/-- Result of a query routed through the synchronization guard: the
distinguished stale-lookup error, or the query's value. -/
inductive SyncResult (α : Type) where
  | stale : SyncResult α
  | ok : α → SyncResult α
deriving DecidableEq

/-- Modelled from the spec: the decorator `utils.check_sync_status` (defined
in `scqubits/utils/misc.py`, which is not under `src/`) checks the
out-of-sync flag before the wrapped query runs and raises the distinguished
stale-lookup error when the underlying spectral data changed since the last
build ("queries fail fast if stale"). -/
def check_sync_status {α : Type} (out_of_sync : Bool) (query : Unit → α) :
    SyncResult α :=
  if out_of_sync then SyncResult.stale else SyncResult.ok (query ())

namespace SpectrumLookupMixin

/-- `dressed_index` as decorated with `@utils.check_sync_status`. -/
def dressed_index_checked (out_of_sync : Bool) (counts : List Nat)
    (table : List Nat → List (Option Nat)) (labels : List (List Nat))
    (bare_labels : List Nat) (param_indices : Option NpIndices)
    (current : NpIndices) : SyncResult (Option (List (Option Nat))) :=
  check_sync_status out_of_sync
    (fun _ => dressed_index counts table labels bare_labels param_indices
      current)

/-- `bare_index` as decorated with `@utils.check_sync_status`. -/
def bare_index_checked (out_of_sync : Bool) (counts : List Nat) (dim : Nat)
    (table : List Nat → List (Option Nat)) (labels : List (List Nat))
    (dressed_index : Nat) (param_indices : Option NpIndices)
    (current : NpIndices) : SyncResult BareIndexOutcome :=
  check_sync_status out_of_sync
    (fun _ => bare_index counts dim table labels dressed_index param_indices
      current)

/-- `eigensys` as decorated with `@utils.check_sync_status`. -/
def eigensys_checked (out_of_sync : Bool) (counts : List Nat)
    (evecs : List Nat → List (List ℚ)) (param_indices : Option NpIndices)
    (current : NpIndices) : SyncResult (List (List (List ℚ))) :=
  check_sync_status out_of_sync
    (fun _ => eigensys counts evecs param_indices current)

/-- `eigenvals` as decorated with `@utils.check_sync_status`. -/
def eigenvals_checked (out_of_sync : Bool) (counts : List Nat)
    (evals : List Nat → List ℚ) (param_indices : Option NpIndices)
    (current : NpIndices) : SyncResult (List (List ℚ)) :=
  check_sync_status out_of_sync
    (fun _ => eigenvals counts evals param_indices current)

/-- `energy_by_bare_index` as decorated with `@utils.check_sync_status`. -/
def energy_by_bare_index_checked (out_of_sync : Bool) (counts : List Nat)
    (table : List Nat → List (Option Nat)) (evals : List Nat → List ℚ)
    (labels : List (List Nat)) (bare_tuple : List Nat)
    (subtract_ground : Bool) (param_indices : Option NpIndices)
    (current : NpIndices) : SyncResult (Option (List (Option ℚ))) :=
  check_sync_status out_of_sync
    (fun _ => energy_by_bare_index counts table evals labels bare_tuple
      subtract_ground param_indices current)

/-- `energy_by_dressed_index` as decorated with `@utils.check_sync_status`. -/
def energy_by_dressed_index_checked (out_of_sync : Bool) (counts : List Nat)
    (evals : List Nat → List ℚ) (dressed_index : Nat)
    (subtract_ground : Bool) (param_indices : Option NpIndices)
    (current : NpIndices) : SyncResult (List ℚ) :=
  check_sync_status out_of_sync
    (fun _ => energy_by_dressed_index counts evals dressed_index
      subtract_ground param_indices current)

/-- `bare_eigenstates` as decorated with `@utils.check_sync_status`. -/
def bare_eigenstates_checked (out_of_sync : Bool) (counts : List Nat)
    (bare_evecs : Nat → List Nat → List (List ℚ)) (subsystems : List Nat)
    (subsys : Nat) (param_indices : Option NpIndices) (current : NpIndices) :
    SyncResult (List (List (List ℚ))) :=
  check_sync_status out_of_sync
    (fun _ => bare_eigenstates counts bare_evecs subsystems subsys
      param_indices current)

/-- `bare_eigenvals` as decorated with `@utils.check_sync_status`. -/
def bare_eigenvals_checked (out_of_sync : Bool) (counts : List Nat)
    (bare_evals : Nat → List Nat → List ℚ) (subsystems : List Nat)
    (subsys : Nat) (param_indices : Option NpIndices) (current : NpIndices) :
    SyncResult (List (List ℚ)) :=
  check_sync_status out_of_sync
    (fun _ => bare_eigenvals counts bare_evals subsystems subsys
      param_indices current)

/-- `SpectrumLookupMixin.bare_productstate` carries no `@utils.check_sync_status`
decorator in the source (nor does `SpectrumLookup.bare_productstate`), so the
out-of-sync flag is never consulted: the query always returns its value. -/
def bare_productstate_checked (out_of_sync : Bool) (subsys_dims : List Nat)
    (bare_idx : List Nat) : SyncResult (List ℚ) :=
  SyncResult.ok (bare_productstate subsys_dims bare_idx)

end SpectrumLookupMixin

/-- C7 counterexample: with the out-of-sync flag set, `bare_productstate`
still answers (it is the one public query without the synchronization
decorator), instead of failing with the stale-lookup error. -/
theorem c7_counterexample :
    SpectrumLookupMixin.bare_productstate_checked true [2] [1]
      = SyncResult.ok (SpectrumLookupMixin.bare_productstate [2] [1]) ∧
    SpectrumLookupMixin.bare_productstate_checked true [2] [1]
      ≠ SyncResult.stale :=
  ⟨rfl, fun h => SyncResult.noConfusion h⟩

/-- C7 (amended): every public query of the mixin's query engine except
`bare_productstate` checks the synchronization flag first and fails with the
distinguished stale-lookup error when it is set; `bare_productstate`, which
never touches the lookup table or spectral data, performs no such check and
answers regardless of the flag. -/
theorem c7_sync_guard (counts : List Nat)
    (table : List Nat → List (Option Nat)) (evals : List Nat → List ℚ)
    (evecs : List Nat → List (List ℚ))
    (bare_evecs : Nat → List Nat → List (List ℚ))
    (bare_evals : Nat → List Nat → List ℚ) (subsystems : List Nat)
    (subsys : Nat) (labels : List (List Nat)) (bt : List Nat) (d dim : Nat)
    (sg oos : Bool) (param_indices : Option NpIndices) (current : NpIndices)
    (subsys_dims bare_idx : List Nat) :
    SpectrumLookupMixin.dressed_index_checked true counts table labels bt
        param_indices current = SyncResult.stale ∧
    SpectrumLookupMixin.bare_index_checked true counts dim table labels d
        param_indices current = SyncResult.stale ∧
    SpectrumLookupMixin.eigensys_checked true counts evecs param_indices
        current = SyncResult.stale ∧
    SpectrumLookupMixin.eigenvals_checked true counts evals param_indices
        current = SyncResult.stale ∧
    SpectrumLookupMixin.energy_by_bare_index_checked true counts table evals
        labels bt sg param_indices current = SyncResult.stale ∧
    SpectrumLookupMixin.energy_by_dressed_index_checked true counts evals d
        sg param_indices current = SyncResult.stale ∧
    SpectrumLookupMixin.bare_eigenstates_checked true counts bare_evecs
        subsystems subsys param_indices current = SyncResult.stale ∧
    SpectrumLookupMixin.bare_eigenvals_checked true counts bare_evals
        subsystems subsys param_indices current = SyncResult.stale ∧
    SpectrumLookupMixin.bare_productstate_checked oos subsys_dims bare_idx
      = SyncResult.ok
          (SpectrumLookupMixin.bare_productstate subsys_dims bare_idx) :=
  ⟨rfl, rfl, rfl, rfl, rfl, rfl, rfl, rfl, rfl⟩

/-- The persistent state of a `SpectrumLookup` instance: exactly the four
fields named by `_init_params` (`_dressed_specdata`, `_bare_specdata_list`,
`_canonical_bare_labels`, `_dressed_indices`). Spectral data are embedded as
their energy tables (dressed: per parameter index; bare: one table per
subsystem). -/
structure SpectrumLookupState where
  dressed_specdata : List (List ℚ)
  bare_specdata_list : List (List (List ℚ))
  canonical_bare_labels : List (List Nat)
  dressed_indices : List (List (Option Nat))
deriving DecidableEq

/-- The serialized form produced from `_init_params`: the same four named
fields, as handed to `io_data.as_kwargs()`. -/
structure SerializedLookup where
  dressed_specdata : List (List ℚ)
  bare_specdata_list : List (List (List ℚ))
  canonical_bare_labels : List (List Nat)
  dressed_indices : List (List (Option Nat))
deriving DecidableEq

namespace SpectrumLookup

/-- Serialization: collect the four `_init_params` fields. -/
def serialize (s : SpectrumLookupState) : SerializedLookup :=
  { dressed_specdata := s.dressed_specdata
    bare_specdata_list := s.bare_specdata_list
    canonical_bare_labels := s.canonical_bare_labels
    dressed_indices := s.dressed_indices }

/-- `SpectrumLookup.deserialize`: construct with `framework=None` and
`auto_run=False` (so the mapping algorithm `run()` is not invoked), then
restore `_canonical_bare_labels` and `_dressed_indices` directly from the
stored data. -/
def deserialize (io_data : SerializedLookup) : SpectrumLookupState :=
  { dressed_specdata := io_data.dressed_specdata
    bare_specdata_list := io_data.bare_specdata_list
    canonical_bare_labels := io_data.canonical_bare_labels
    dressed_indices := io_data.dressed_indices }

/-- `SpectrumLookup.dressed_index`: position of the bare label in the
canonical list (first occurrence; `None` on `ValueError`), then the stored
dressed index at that position for the given parameter index. -/
def dressed_index (s : SpectrumLookupState) (bare_labels : List Nat)
    (param_index : Nat) : Option Nat :=
  match s.canonical_bare_labels.findIdx? (fun l => l == bare_labels) with
  | none => none
  | some lookup_position =>
      (s.dressed_indices.getD param_index []).getD lookup_position none

/-- `SpectrumLookup.bare_index`: position of the first stored entry equal to
the dressed index (`None` on `ValueError`), then the canonical bare label at
that position. -/
def bare_index (s : SpectrumLookupState) (dressed_index : Nat)
    (param_index : Nat) : Option (List Nat) :=
  match (s.dressed_indices.getD param_index []).findIdx?
      (fun e => e == some dressed_index) with
  | none => none
  | some lookup_position =>
      some (s.canonical_bare_labels.getD lookup_position [])

end SpectrumLookup

/-- C8: serializing and deserializing a `SpectrumLookup` restores exactly
the four named fields (the deserializer copies them without re-running the
mapping algorithm), and `dressed_index`/`bare_index` agree with the original
instance at every bare label, dressed index and parameter index. -/
theorem c8_serialization_round_trip (s : SpectrumLookupState)
    (bare_labels : List Nat) (d param_index : Nat) :
    (SpectrumLookup.deserialize (SpectrumLookup.serialize s)).dressed_specdata
      = s.dressed_specdata ∧
    (SpectrumLookup.deserialize (SpectrumLookup.serialize s)).bare_specdata_list
      = s.bare_specdata_list ∧
    (SpectrumLookup.deserialize
        (SpectrumLookup.serialize s)).canonical_bare_labels
      = s.canonical_bare_labels ∧
    (SpectrumLookup.deserialize (SpectrumLookup.serialize s)).dressed_indices
      = s.dressed_indices ∧
    SpectrumLookup.dressed_index
        (SpectrumLookup.deserialize (SpectrumLookup.serialize s)) bare_labels
        param_index
      = SpectrumLookup.dressed_index s bare_labels param_index ∧
    SpectrumLookup.bare_index
        (SpectrumLookup.deserialize (SpectrumLookup.serialize s)) d param_index
      = SpectrumLookup.bare_index s d param_index :=
  ⟨rfl, rfl, rfl, rfl, rfl, rfl⟩

/-- The legacy `SpectrumLookup.bare_index` catches the `ValueError` of
`.index(dressed_index)` and returns `None` silently when the dressed index
matches no stored position; when a match exists it returns the canonical
bare label at the first matching position of the linear scan. -/
lemma SL_bare_index_scan_spec (s : SpectrumLookupState)
    (dc param_index : Nat) :
    (SpectrumLookup.bare_index s dc param_index = none ↔
      ∀ e ∈ s.dressed_indices.getD param_index [], e ≠ some dc) ∧
    (∀ pos, pos < (s.dressed_indices.getD param_index []).length →
      (s.dressed_indices.getD param_index []).getD pos none = some dc →
      (∀ q, q < pos →
        (s.dressed_indices.getD param_index []).getD q none ≠ some dc) →
      SpectrumLookup.bare_index s dc param_index
        = some (s.canonical_bare_labels.getD pos [])) := by
  set row := s.dressed_indices.getD param_index [] with hrowdef
  constructor
  · unfold SpectrumLookup.bare_index
    rw [← hrowdef]
    cases hf : row.findIdx? (fun e => e == some dc) with
    | none =>
      rw [List.findIdx?_eq_none_iff] at hf
      constructor
      · intro _ e he
        exact beq_eq_false_iff_ne.mp (hf e he)
      · intro _
        rfl
    | some p =>
      constructor
      · intro hcontra
        exact absurd hcontra (by simp)
      · intro hall
        exfalso
        rw [List.findIdx?_eq_some_iff_getElem] at hf
        obtain ⟨hp, hpq, _⟩ := hf
        exact hall row[p] (List.getElem_mem hp) (beq_iff_eq.mp hpq)
  · intro pos hpos hposd hmin
    unfold SpectrumLookup.bare_index
    rw [← hrowdef]
    have hf : row.findIdx? (fun e => e == some dc) = some pos := by
      rw [List.findIdx?_eq_some_iff_getElem]
      refine ⟨hpos, ?_, ?_⟩
      · show (row[pos] == some dc) = true
        rw [beq_iff_eq, ← List.getD_eq_getElem row none hpos]
        exact hposd
      · intro j hj
        have hjlen : j < row.length := by omega
        show ¬(row[j] == some dc) = true
        rw [beq_iff_eq, ← List.getD_eq_getElem row none hjlen]
        exact hmin j hj
    rw [hf]

/-- C6 counterexample: the claim also covers `SpectrumLookup.bare_index`
(the single-point lookup class), whose body catches the `ValueError` of
`.index(dressed_index)` and returns `None` silently. At a table whose only
row holds no entry equal to dressed index 5, the call returns the silent
`None` instead of raising a descriptive lookup-failure error (its return
type has no error path at all). -/
theorem c6_counterexample :
    SpectrumLookup.bare_index
      { dressed_specdata := [], bare_specdata_list := [],
        canonical_bare_labels := [[0]], dressed_indices := [[none]] } 5 0
      = none := by decide

/-- C6 (amended): at a fully fixed parameter point where the dressed index
matches no position of the table, the mixin's `bare_index` raises the
descriptive lookup-failure error, while the legacy `SpectrumLookup.bare_index`
returns `None` silently; whenever a match exists, both return the canonical
bare label at the first matching position found by a linear scan. -/
theorem c6_bare_index_lookup_failure (counts : List Nat) (dim : Nat)
    (table : List Nat → List (Option Nat)) (labels : List (List Nat))
    (d : Nat) (param_indices : Option NpIndices) (current : NpIndices)
    (s : SpectrumLookupState) (dc param_index : Nat)
    (hconc : ∀ v ∈ SpectrumLookupMixin.set_npindextuple param_indices current,
      v ≠ NpIndexVal.sl)
    (hlen : (SpectrumLookupMixin.set_npindextuple param_indices current).length
      = counts.length) :
    (SpectrumLookupMixin.bare_index counts dim table labels d
        param_indices current
      = SpectrumLookupMixin.BareIndexOutcome.notFoundError
      ↔ ∀ b, b < dim →
        (table (fillSpec
          (SpectrumLookupMixin.set_npindextuple param_indices current) [])).getD
            b none ≠ some d) ∧
    (∀ pos, pos < dim →
      (table (fillSpec
        (SpectrumLookupMixin.set_npindextuple param_indices current) [])).getD
          pos none = some d →
      (∀ q, q < pos →
        (table (fillSpec
          (SpectrumLookupMixin.set_npindextuple param_indices current) [])).getD
            q none ≠ some d) →
      SpectrumLookupMixin.bare_index counts dim table labels d
          param_indices current
        = SpectrumLookupMixin.BareIndexOutcome.ok (labels.getD pos [])) ∧
    (SpectrumLookup.bare_index s dc param_index = none ↔
      ∀ e ∈ s.dressed_indices.getD param_index [], e ≠ some dc) ∧
    (∀ pos, pos < (s.dressed_indices.getD param_index []).length →
      (s.dressed_indices.getD param_index []).getD pos none = some dc →
      (∀ q, q < pos →
        (s.dressed_indices.getD param_index []).getD q none ≠ some dc) →
      SpectrumLookup.bare_index s dc param_index
        = some (s.canonical_bare_labels.getD pos [])) := by
  obtain ⟨h1, h2⟩ := mixin_bare_index_scan_spec counts dim table labels d
    param_indices current hconc hlen
  obtain ⟨g1, g2⟩ := SL_bare_index_scan_spec s dc param_index
  exact ⟨h1, h2, g1, g2⟩

/-- Lookup state used by the C6 witness: one parameter point whose table row
holds dressed indices 4 and 7 at bare positions 0 and 1. -/
def c6WitnessState : SpectrumLookupState :=
  { dressed_specdata := [], bare_specdata_list := [],
    canonical_bare_labels := [[0], [1]],
    dressed_indices := [[some 4, some 7]] }

/-- C6 witness: two parameter axes fixed concretely for the mixin (the table
at the point `(1, 0)` holds dressed index 3 first at bare position 1), and a
concrete legacy lookup state where dressed index 7 first matches at stored
position 1. -/
theorem c6_bare_index_lookup_failure_witness :
    (SpectrumLookupMixin.bare_index [2, 1]
        2 (fun pt => if pt = [1, 0] then [none, some 3] else [some 9, none])
        [[0], [1]] 3
        (some (NpIndices.tup [NpIndexVal.idx 1, NpIndexVal.idx 0]))
        (NpIndices.tup [])
      = SpectrumLookupMixin.BareIndexOutcome.notFoundError
      ↔ ∀ b, b < 2 →
        ((fun pt => if pt = [1, 0] then [none, some 3] else [some 9, none])
          (fillSpec (SpectrumLookupMixin.set_npindextuple
            (some (NpIndices.tup [NpIndexVal.idx 1, NpIndexVal.idx 0]))
            (NpIndices.tup [])) [])).getD b none ≠ some 3) ∧
    (∀ pos, pos < 2 →
      ((fun pt => if pt = [1, 0] then [none, some 3] else [some 9, none])
        (fillSpec (SpectrumLookupMixin.set_npindextuple
          (some (NpIndices.tup [NpIndexVal.idx 1, NpIndexVal.idx 0]))
          (NpIndices.tup [])) [])).getD pos none = some 3 →
      (∀ q, q < pos →
        ((fun pt => if pt = [1, 0] then [none, some 3] else [some 9, none])
          (fillSpec (SpectrumLookupMixin.set_npindextuple
            (some (NpIndices.tup [NpIndexVal.idx 1, NpIndexVal.idx 0]))
            (NpIndices.tup [])) [])).getD q none ≠ some 3) →
      SpectrumLookupMixin.bare_index [2, 1]
          2 (fun pt => if pt = [1, 0] then [none, some 3] else [some 9, none])
          [[0], [1]] 3
          (some (NpIndices.tup [NpIndexVal.idx 1, NpIndexVal.idx 0]))
          (NpIndices.tup [])
        = SpectrumLookupMixin.BareIndexOutcome.ok ([[0], [1]].getD pos [])) ∧
    (SpectrumLookup.bare_index c6WitnessState 7 0 = none ↔
      ∀ e ∈ c6WitnessState.dressed_indices.getD 0 [], e ≠ some 7) ∧
    (∀ pos, pos < (c6WitnessState.dressed_indices.getD 0 []).length →
      (c6WitnessState.dressed_indices.getD 0 []).getD pos none = some 7 →
      (∀ q, q < pos →
        (c6WitnessState.dressed_indices.getD 0 []).getD q none ≠ some 7) →
      SpectrumLookup.bare_index c6WitnessState 7 0
        = some (c6WitnessState.canonical_bare_labels.getD pos [])) :=
  c6_bare_index_lookup_failure [2, 1] 2
    (fun pt => if pt = [1, 0] then [none, some 3] else [some 9, none])
    [[0], [1]] 3
    (some (NpIndices.tup [NpIndexVal.idx 1, NpIndexVal.idx 0]))
    (NpIndices.tup []) c6WitnessState 7 0 (by decide) (by decide)
